import Mathlib

set_option maxHeartbeats 1000000

namespace KaliMcp

/-! Character and string helpers mirroring Python's `str.strip` behaviour
    (whitespace set: space, tab, newline, carriage return, vertical tab, form feed). -/

def isSpaceChar (c : Char) : Bool :=
  c = ' ' || c = '\t' || c = '\n' || c = '\r' || c = '\x0b' || c = '\x0c'

def pyTrim (l : List Char) : List Char :=
  ((l.dropWhile isSpaceChar).reverse.dropWhile isSpaceChar).reverse

def pyStripS (s : String) : String :=
  (pyTrim s.toList).asString

/-! ## Model of `src/utils/command.py`

`run_command` spawns the command; on success it returns the decoded, stripped
output streams and the exit code; on timeout it runs `_cleanup_process`
(SIGTERM to the process group, then SIGKILL after a 5-second grace period if
the process is still alive) and returns `("", timeout message, -1)`; any spawn
failure is caught and returned as `("", error message, -1)`.

The OS-level behaviour of the spawned process is abstracted as `ProcBehavior`;
the signals `_cleanup_process` sends are returned as an explicit trace. -/

inductive Sig
  | term
  | kill
deriving DecidableEq

/-- Grace period (seconds) `_cleanup_process` waits between SIGTERM and SIGKILL. -/
def CLEANUP_GRACE : Nat := 5

inductive ProcBehavior
  | spawnFail (msg : String)
  | finishes (stdout stderr : String) (code : Int)
  | timesOut (diesWithinGrace : Bool)

/-- Signal trace of `_cleanup_process`: SIGTERM first, and SIGKILL only if the
process is still alive after the grace period.  Process-already-gone errors are
swallowed, so the trace is all that is observable. -/
def cleanupSignals (diesWithinGrace : Bool) : List Sig :=
  if diesWithinGrace then [Sig.term] else [Sig.term, Sig.kill]

/-- Model of `command.run_command`: result triple `(stdout, stderr, return_code)`
paired with the trace of signals sent to the process group. -/
def run_command (beh : ProcBehavior) (timeout : Nat) :
    (String × String × Int) × List Sig :=
  match beh with
  | .spawnFail msg => (("", "Error executing command: " ++ msg, -1), [])
  | .finishes out err code => ((pyStripS out, pyStripS err, code), [])
  | .timesOut dies =>
      (("", "Command timed out after " ++ toString timeout ++ " seconds", -1),
       cleanupSignals dies)

/-! ## Model of the job engine in `src/kali_server.py`

`background_jobs` is a dict from job id to a job record; we model it as an
association list with dict semantics (unique keys maintained by `setJob`,
`removeJob` implemented as key filtering). -/

inductive Status
  | running
  | completed
  | cancelled
  | timeout
  | error
deriving DecidableEq

structure Job where
  command : String
  status : Status
  startTime : Nat
  endTime : Option Nat
  timeout : Nat
  returnCode : Option Int
  process : Option Nat
  stdout : String
  stderr : String
deriving DecidableEq

abbrev JobStore := List (String × Job)

def lookupJob : JobStore → String → Option Job
  | [], _ => none
  | (k, j) :: rest, id => if k = id then some j else lookupJob rest id

def setJob : JobStore → String → Job → JobStore
  | [], id, j => [(id, j)]
  | (k, j0) :: rest, id, j =>
      if k = id then (id, j) :: rest else (k, j0) :: setJob rest id j

def removeJob : JobStore → String → JobStore
  | [], _ => []
  | (k, j) :: rest, id =>
      if k = id then removeJob rest id else (k, j) :: removeJob rest id

/-- The job record inserted by `run_kali_command` (kali_server.py lines 247-257):
status `running`, no end time, no return code, and — crucially — no process
handle yet. -/
def initJob (cmd : String) (timeout : Nat) (now : Nat) : Job :=
  { command := cmd
    status := .running
    startTime := now
    endTime := none
    timeout := timeout
    returnCode := none
    process := none
    stdout := ""
    stderr := "" }

/-- What `run_background_command` stores after spawning (line 456):
`background_jobs[job_id]['process'] = process`. -/
def bg_store_process (store : JobStore) (id : String) (pid : Nat) : JobStore :=
  match lookupJob store id with
  | none => store
  | some j => setJob store id { j with process := some pid }

/-- Terminal outcome of one background execution, abstracting the OS. -/
inductive BgOutcome
  | completed (stdout stderr : String) (code : Int)
  | timedOut
  | cancelled
  | spawnError (msg : String)

/-- Effect of `run_background_command` on the job record once it reaches a
terminal state (kali_server.py lines 458-495).  Spawn success stores the
process handle; none of the terminal branches ever clears it. -/
def applyOutcome (j : Job) (o : BgOutcome) (pid : Nat) (tEnd : Nat) : Job :=
  match o with
  | .completed out err code =>
      { j with process := some pid, stdout := out, stderr := err,
               returnCode := some code, status := .completed, endTime := some tEnd }
  | .timedOut =>
      { j with process := some pid,
               stderr := "Command timed out after " ++ toString j.timeout ++ " seconds",
               returnCode := some (-1), status := .timeout, endTime := some tEnd }
  | .cancelled =>
      { j with process := some pid, stderr := "Command was cancelled",
               status := .cancelled, endTime := some tEnd }
  | .spawnError msg =>
      { j with stderr := "Failed to start command: " ++ msg,
               status := .error, endTime := some tEnd }

/-- Display of the `return_code` field in an f-string: `None` when absent. -/
def rcShow : Option Int → String
  | none => "None"
  | some n => toString n

def fmtBlock (s e rcs : String) : String :=
  "---- [stdout] ----\n" ++ s ++ "\n---- [stderr] ----\n" ++ e ++
  "\n---- [return code] ----\n" ++ rcs ++ "\n"

/-- Formatted block of the synchronous path (lines 233-240): the streams were
already stripped by `command.run_command`, the return code is a real int. -/
def fmtSyncOut (s e : String) (rc : Int) : String :=
  fmtBlock (if s = "" then "(empty)" else s) (if e = "" then "(empty)" else e)
    (toString rc)

/-- Formatted block used by the fast path (lines 276-283) and by
`get_job_status` (lines 335-340): streams are stripped at display time (with
Python truthiness on the unstripped string) and the return code may be `None`. -/
def fmtJobOut (s e : String) (rc : Option Int) : String :=
  fmtBlock (if s = "" then "(empty)" else pyStripS s)
    (if e = "" then "(empty)" else pyStripS e) (rcShow rc)

/-- Seconds `run_kali_command` waits (via `asyncio.wait_for` over a shielded
task, so the task is not cancelled on expiry) for a fast background result. -/
def FAST_PATH_WINDOW : Nat := 2

/-- Threshold of the mode-selection policy: `as_job = timeout > 60`. -/
def SYNC_THRESHOLD : Nat := 60

/-- Oracle for one `run_kali_command` call: the generated job id, the clock,
the behaviour of the synchronous process run, and — for the background path —
whether the task reached a terminal state within the 2-second window
(`fastOutcome = some o`) or was still running when the window elapsed. -/
structure Env where
  jobId : String
  now : Nat
  tEnd : Nat
  pid : Nat
  beh : ProcBehavior
  fastOutcome : Option BgOutcome

inductive RunResult
  | direct (text : String)
  | handle (jobId command : String) (timeout : Nat)
  | invalid (msg : String)
deriving DecidableEq

/-- Model of `run_kali_command` (kali_server.py lines 205-299).  The store
returned in the handle case is the store as of the insertion at line 247; the
background task's own writes (`bg_store_process`, `applyOutcome`) happen
afterwards.  In the fast case the task has already applied its outcome, and the
handler reads the captured output and deletes the job (line 273). -/
def run_kali_command (cmd : String) (timeout : Nat) (env : Env)
    (store : JobStore) : RunResult × JobStore :=
  if pyStripS cmd = "" then (.invalid "Command cannot be empty", store)
  else if timeout ≤ SYNC_THRESHOLD then
    let r := (run_command env.beh timeout).fst
    (.direct (fmtSyncOut r.fst r.snd.fst r.snd.snd), store)
  else
    let j0 := initJob cmd timeout env.now
    let store1 := setJob store env.jobId j0
    match env.fastOutcome with
    | some o =>
        let j1 := applyOutcome j0 o env.pid env.tEnd
        (.direct (fmtJobOut j1.stdout j1.stderr j1.returnCode),
         removeJob store1 env.jobId)
    | none => (.handle env.jobId cmd timeout, store1)

inductive StatusResult
  | notFound (id : String)
  | runningInfo (id : String) (runtime : Nat) (timeout : Nat)
  | output (text : String)
deriving DecidableEq

def StatusResult.isNotFound : StatusResult → Bool
  | .notFound _ => true
  | _ => false

/-- Model of `get_job_status` (kali_server.py lines 302-345): unknown id gives
a not-found error; a running job gives a status record and leaves the store
unchanged; a terminal job gives the formatted output block and is deleted from
the store (read-and-reap, line 343). -/
def get_job_status (store : JobStore) (id : String) (now : Nat) :
    StatusResult × JobStore :=
  match lookupJob store id with
  | none => (.notFound id, store)
  | some j =>
      if j.status = .running then
        (.runningInfo id ((j.endTime.getD now) - j.startTime) j.timeout, store)
      else
        (.output (fmtJobOut j.stdout j.stderr j.returnCode), removeJob store id)

inductive CancelResult
  | notFound (id : String)
  | conflict (id : String) (current : Status)
  | ok (id : String)
deriving DecidableEq

/-- Model of `cancel_job` (kali_server.py lines 381-438): not-found for an
unknown id; conflict for a non-running job; otherwise the process group is
signalled (SIGTERM, 3-second wait, SIGKILL escalation, process-already-gone
swallowed) and the record is marked `cancelled` with its end time set.  The
job is not removed from the store. -/
def cancel_job (store : JobStore) (id : String) (tEnd : Nat) :
    CancelResult × JobStore :=
  match lookupJob store id with
  | none => (.notFound id, store)
  | some j =>
      if j.status ≠ .running then (.conflict id j.status, store)
      else (.ok id, setJob store id { j with status := .cancelled, endTime := some tEnd })

/-! ## Model of `src/utils/interactsh.py`

`_parse_payloads_from_output` strips ANSI colour sequences (regex
`\[[0-9;]*m`), builds one pattern `[a-zA-Z0-9]{20,}\.<escaped domain>` per
comma-separated (stripped, protocol-less) server entry, collects the leftmost
non-overlapping matches of each pattern, appends the leftmost non-overlapping
matches of `https?://[^\s]+`, and de-duplicates preserving first occurrence
(`list(dict.fromkeys(...))`).  Text is modelled as `List Char` and the regex
scans are implemented directly, with fuel for kernel computability. -/

def isAlnumChar (c : Char) : Bool :=
  (('a' ≤ c && c ≤ 'z') || ('A' ≤ c && c ≤ 'Z') || ('0' ≤ c && c ≤ '9'))

def isAnsiBodyChar (c : Char) : Bool :=
  ('0' ≤ c && c ≤ '9') || c = ';'

def listStartsWith : List Char → List Char → Bool
  | [], _ => true
  | _ :: _, [] => false
  | p :: ps, c :: cs => p = c && listStartsWith ps cs

/-- `re.sub(r'\[[0-9;]*m', '', output)`: remove every leftmost non-overlapping
occurrence of a literal `[`, a run of digits or semicolons, and a literal `m`. -/
def stripAnsiGo : Nat → List Char → List Char
  | 0, l => l
  | _ + 1, [] => []
  | fuel + 1, '[' :: cs =>
      let body := cs.takeWhile isAnsiBodyChar
      match cs.dropWhile isAnsiBodyChar with
      | 'm' :: rest => stripAnsiGo fuel rest
      | _ =>
          let _ := body
          '[' :: stripAnsiGo fuel cs
  | fuel + 1, c :: cs => c :: stripAnsiGo fuel cs

def stripAnsi (l : List Char) : List Char :=
  stripAnsiGo l.length l

/-- Head match of the pattern `[a-zA-Z0-9]{20,}\.<domain>`: succeeds exactly
when the maximal leading alphanumeric run has length at least 20 and is
immediately followed by `.` and the literal domain (the greedy quantifier
backtracks only onto alphanumerics, which can never equal the required `.`). -/
def headMatch (d : List Char) (l : List Char) : Option (List Char) :=
  let run := l.takeWhile isAlnumChar
  if 20 ≤ run.length then
    if listStartsWith ('.' :: d) (l.dropWhile isAlnumChar) then
      some (run ++ '.' :: d)
    else none
  else none

/-- `re.findall` scan for one domain pattern: try a match at each position,
left to right; on success emit it and resume after the matched span. -/
def findAllDomainGo (d : List Char) : Nat → List Char → List (List Char)
  | 0, _ => []
  | _ + 1, [] => []
  | fuel + 1, c :: cs =>
      match headMatch d (c :: cs) with
      | some m => m :: findAllDomainGo d fuel (List.drop (m.length - 1) cs)
      | none => findAllDomainGo d fuel cs

def findAllDomain (d : List Char) (l : List Char) : List (List Char) :=
  findAllDomainGo d l.length l

def SCHEME_HTTPS : List Char := 'h' :: 't' :: 't' :: 'p' :: 's' :: ':' :: '/' :: '/' :: []

def SCHEME_HTTP : List Char := 'h' :: 't' :: 't' :: 'p' :: ':' :: '/' :: '/' :: []

/-- Head match of `https?://[^\s]+`: one of the two scheme literals followed
by at least one non-whitespace character, taken greedily. -/
def headMatchUrl (l : List Char) : Option (List Char) :=
  if listStartsWith SCHEME_HTTPS l then
    let tok := (l.drop 8).takeWhile (fun c => !isSpaceChar c)
    if tok.length = 0 then none
    else some (SCHEME_HTTPS ++ tok)
  else if listStartsWith SCHEME_HTTP l then
    let tok := (l.drop 7).takeWhile (fun c => !isSpaceChar c)
    if tok.length = 0 then none
    else some (SCHEME_HTTP ++ tok)
  else none

def findAllUrlGo : Nat → List Char → List (List Char)
  | 0, _ => []
  | _ + 1, [] => []
  | fuel + 1, c :: cs =>
      match headMatchUrl (c :: cs) with
      | some m => m :: findAllUrlGo fuel (List.drop (m.length - 1) cs)
      | none => findAllUrlGo fuel cs

def findAllUrl (l : List Char) : List (List Char) :=
  findAllUrlGo l.length l

/-- Python `server.split(',')`. -/
def splitComma : List Char → List (List Char)
  | [] => [[]]
  | ',' :: cs => [] :: splitComma cs
  | c :: cs =>
      match splitComma cs with
      | [] => [[c]]
      | t :: ts => (c :: t) :: ts

/-- `re.sub(r'^https?://', '', srv)`: drop one leading scheme if present. -/
def dropProtocol (l : List Char) : List Char :=
  if listStartsWith SCHEME_HTTPS l then l.drop 8
  else if listStartsWith SCHEME_HTTP l then l.drop 7
  else l

/-- The cleaned domain list built from the `server` config value (split on
commas, stripped, protocol removed; `re.escape` then makes each domain a
literal, which is how `findAllDomain` treats it). -/
def serverDomains (server : List Char) : List (List Char) :=
  (splitComma server).map (fun s => dropProtocol (pyTrim s))

/-- `list(dict.fromkeys(xs))`: keep the first occurrence of each element. -/
def dedupFirstAux : List (List Char) → List (List Char) → List (List Char)
  | _, [] => []
  | seen, x :: xs =>
      if x ∈ seen then dedupFirstAux seen xs
      else x :: dedupFirstAux (x :: seen) xs

def dedupFirst (xs : List (List Char)) : List (List Char) :=
  dedupFirstAux [] xs

/-- Model of `_parse_payloads_from_output` (interactsh.py lines 280-308). -/
def parse_payloads_from_output (output : List Char) (server : List Char) :
    List (List Char) :=
  let clean := stripAnsi output
  let doms := (serverDomains server).map (fun d => findAllDomain d clean)
  let urls := findAllUrl clean
  dedupFirst (doms.flatten ++ urls)

/-! ## A small JSON model for `poll_interactsh`

`json.loads` is modelled by a recursive-descent parser over a JSON subset
(null, booleans, integers, escape-free strings, arrays, objects); fuel makes
it structurally recursive and kernel-computable. -/

inductive Json where
  | null
  | bool (b : Bool)
  | num (n : Int)
  | str (s : List Char)
  | arr (elems : List Json)
  | obj (fields : List (List Char × Json))

def isJsonWs (c : Char) : Bool :=
  c = ' ' || c = '\t' || c = '\n' || c = '\r'

def skipWs (l : List Char) : List Char :=
  l.dropWhile isJsonWs

def parseStringBody : List Char → Option (List Char × List Char)
  | [] => none
  | '"' :: rest => some ([], rest)
  | '\\' :: _ => none
  | c :: rest =>
      if c.toNat < 32 then none
      else
        match parseStringBody rest with
        | some (s, rem) => some (c :: s, rem)
        | none => none

def digitsToNat (ds : List Char) : Nat :=
  ds.foldl (fun n c => 10 * n + (c.toNat - 48)) 0

/-- Parse a JSON integer literal starting at `l` (strict: optional `-`, no
leading zeros except `0` itself, and no fraction or exponent may follow). -/
def parseNum (l : List Char) : Option (Json × List Char) :=
  let (neg, l') := match l with
    | '-' :: rest => (true, rest)
    | _ => (false, l)
  let ds := l'.takeWhile Char.isDigit
  let rest := l'.dropWhile Char.isDigit
  if ds.length = 0 then none
  else if ds.length > 1 && ds.headI = '0' then none
  else
    match rest with
    | '.' :: _ => none
    | 'e' :: _ => none
    | 'E' :: _ => none
    | _ =>
        let n : Int := Int.ofNat (digitsToNat ds)
        some (.num (if neg then -n else n), rest)

mutual

def parseVal : Nat → List Char → Option (Json × List Char)
  | 0, _ => none
  | fuel + 1, l =>
      match skipWs l with
      | 'n' :: 'u' :: 'l' :: 'l' :: rest => some (.null, rest)
      | 't' :: 'r' :: 'u' :: 'e' :: rest => some (.bool true, rest)
      | 'f' :: 'a' :: 'l' :: 's' :: 'e' :: rest => some (.bool false, rest)
      | '"' :: rest =>
          match parseStringBody rest with
          | some (s, rem) => some (.str s, rem)
          | none => none
      | '[' :: rest =>
          match skipWs rest with
          | ']' :: rem => some (.arr [], rem)
          | l' =>
              match parseVal fuel l' with
              | some (v, r) => parseArrRest fuel [v] r
              | none => none
      | '{' :: rest =>
          match skipWs rest with
          | '}' :: rem => some (.obj [], rem)
          | '"' :: l' =>
              match parseStringBody l' with
              | some (k, r) => parseObjAfterKey fuel [] k r
              | none => none
          | _ => none
      | l' => parseNum l'

def parseArrRest : Nat → List Json → List Char → Option (Json × List Char)
  | 0, _, _ => none
  | fuel + 1, acc, l =>
      match skipWs l with
      | ']' :: rem => some (.arr acc.reverse, rem)
      | ',' :: rest =>
          match parseVal fuel rest with
          | some (v, r) => parseArrRest fuel (v :: acc) r
          | none => none
      | _ => none

def parseObjAfterKey : Nat → List (List Char × Json) → List Char → List Char →
    Option (Json × List Char)
  | 0, _, _, _ => none
  | fuel + 1, acc, k, l =>
      match skipWs l with
      | ':' :: rest =>
          match parseVal fuel rest with
          | some (v, r) => parseObjRest fuel ((k, v) :: acc) r
          | none => none
      | _ => none

def parseObjRest : Nat → List (List Char × Json) → List Char →
    Option (Json × List Char)
  | 0, _, _ => none
  | fuel + 1, acc, l =>
      match skipWs l with
      | '}' :: rem => some (.obj acc.reverse, rem)
      | ',' :: rest =>
          match skipWs rest with
          | '"' :: l' =>
              match parseStringBody l' with
              | some (k, r) => parseObjAfterKey fuel acc k r
              | none => none
          | _ => none
      | _ => none

end

/-- Model of `json.loads`: parse one value and require only trailing
whitespace after it. -/
def parseJsonL (l : List Char) : Option Json :=
  match parseVal (2 * l.length + 8) l with
  | some (v, rest) => if skipWs rest = [] then some v else none
  | none => none

/-! ## Model of `poll_interactsh` (interactsh.py lines 138-194) -/

inductive WStatus
  | running
  | stopped
deriving DecidableEq

structure Worker where
  status : WStatus
  outputFile : String

inductive PollResult
  | success (interactions : List Json) (count : Nat) (fileExists : Bool)
  | errNoWorker
  | errNotRunning (current : WStatus)

/-- The non-blank stripped lines of the output file. -/
def pollLines (content : List (List Char)) : List (List Char) :=
  (content.map pyTrim).filter (fun l => l ≠ [])

/-- `'[' + ','.join(lines) + ']'`. -/
def assembled (content : List (List Char)) : List Char :=
  '[' :: (List.intercalate [','] (pollLines content)) ++ [']']

/-- Model of `poll_interactsh`: no worker or a non-running worker is an error;
otherwise the file (modelled as `none` when missing, `some lines` otherwise)
is read, its non-blank lines are joined into one JSON array text and parsed in
a single `json.loads` call; a missing file or a failed parse degrades to an
empty interaction list inside a success response. -/
def poll_interactsh (w : Option Worker) (file : Option (List (List Char))) :
    PollResult :=
  match w with
  | none => .errNoWorker
  | some wk =>
      if wk.status ≠ .running then .errNotRunning wk.status
      else
        let interactions :=
          match file with
          | none => []
          | some content =>
              if pollLines content = [] then []
              else
                match parseJsonL (assembled content) with
                | some (.arr vs) => vs
                | _ => []
        .success interactions interactions.length file.isSome

/-! ## Store lemmas -/

theorem lookupJob_setJob_self (store : JobStore) (id : String) (j : Job) :
    lookupJob (setJob store id j) id = some j := by
  induction store with
  | nil => simp [setJob, lookupJob]
  | cons kv rest ih =>
      obtain ⟨k, j0⟩ := kv
      by_cases h : k = id
      · simp [setJob, h, lookupJob]
      · simp [setJob, h, lookupJob, ih]

theorem lookupJob_setJob_ne (store : JobStore) (id k : String) (j : Job)
    (h : k ≠ id) : lookupJob (setJob store id j) k = lookupJob store k := by
  induction store with
  | nil =>
      simp only [setJob, lookupJob]
      rw [if_neg (fun hh => h hh.symm)]
  | cons kv rest ih =>
      obtain ⟨k0, j0⟩ := kv
      by_cases h0 : k0 = id
      · subst h0
        simp only [setJob, if_pos rfl, lookupJob]
        rw [if_neg (fun hh => h hh.symm), if_neg (fun hh => h hh.symm)]
      · simp only [setJob, if_neg h0, lookupJob]
        by_cases h1 : k0 = k
        · rw [if_pos h1, if_pos h1]
        · rw [if_neg h1, if_neg h1]
          exact ih

theorem lookupJob_removeJob_self (store : JobStore) (id : String) :
    lookupJob (removeJob store id) id = none := by
  induction store with
  | nil => simp [removeJob, lookupJob]
  | cons kv rest ih =>
      obtain ⟨k, j⟩ := kv
      by_cases h : k = id
      · simp [removeJob, h, ih]
      · simp [removeJob, h, lookupJob, ih]

theorem lookupJob_removeJob_ne (store : JobStore) (id k : String) (h : k ≠ id) :
    lookupJob (removeJob store id) k = lookupJob store k := by
  induction store with
  | nil => simp [removeJob]
  | cons kv rest ih =>
      obtain ⟨k0, j0⟩ := kv
      by_cases h0 : k0 = id
      · subst h0
        have e1 : removeJob ((k0, j0) :: rest) k0 = removeJob rest k0 := by
          simp [removeJob]
        have e2 : lookupJob ((k0, j0) :: rest) k = lookupJob rest k := by
          simp only [lookupJob]
          rw [if_neg (fun hh => h hh.symm)]
        rw [e1, e2]
        exact ih
      · simp only [removeJob, if_neg h0, lookupJob]
        by_cases h1 : k0 = k
        · rw [if_pos h1, if_pos h1]
        · rw [if_neg h1, if_neg h1]
          exact ih

/-! ## Claims about the job engine -/

/-- Claim C1: read-and-reap semantics of `get_job_status` — for a job in any
terminal state (completed, cancelled, timeout or error), the first query
returns the formatted output block and removes the job from the store, and a
subsequent query for the same id returns a not-found error. -/
theorem C1_get_job_status_read_and_reap
    (store : JobStore) (id : String) (j : Job) (now later : Nat)
    (hl : lookupJob store id = some j)
    (ht : j.status = .completed ∨ j.status = .cancelled ∨
          j.status = .timeout ∨ j.status = .error) :
    get_job_status store id now =
      (.output (fmtJobOut j.stdout j.stderr j.returnCode), removeJob store id) ∧
    get_job_status (removeJob store id) id later =
      (.notFound id, removeJob store id) := by
  have hne : ¬ j.status = Status.running := by
    rcases ht with h | h | h | h <;> simp [h]
  constructor
  · simp [get_job_status, hl, hne]
  · simp [get_job_status, lookupJob_removeJob_self]

theorem C1_witness :
    lookupJob [("j1", applyOutcome (initJob "nmap -sV host" 300 0)
        (.completed "out" "" 0) 42 5)] "j1" =
      some (applyOutcome (initJob "nmap -sV host" 300 0) (.completed "out" "" 0) 42 5) ∧
    get_job_status [("j1", applyOutcome (initJob "nmap -sV host" 300 0)
        (.completed "out" "" 0) 42 5)] "j1" 7 =
      (.output (fmtJobOut "out" "" (some 0)),
       removeJob [("j1", applyOutcome (initJob "nmap -sV host" 300 0)
        (.completed "out" "" 0) 42 5)] "j1") ∧
    get_job_status (removeJob [("j1", applyOutcome (initJob "nmap -sV host" 300 0)
        (.completed "out" "" 0) 42 5)] "j1") "j1" 9 =
      (.notFound "j1",
       removeJob [("j1", applyOutcome (initJob "nmap -sV host" 300 0)
        (.completed "out" "" 0) 42 5)] "j1") := by
  refine ⟨by decide, ?_⟩
  exact C1_get_job_status_read_and_reap
    [("j1", applyOutcome (initJob "nmap -sV host" 300 0) (.completed "out" "" 0) 42 5)]
    "j1" (applyOutcome (initJob "nmap -sV host" 300 0) (.completed "out" "" 0) 42 5)
    7 9 (by decide) (Or.inl rfl)

/-- Claim C2: for submits with timeout > 60, the scheduler waits a 2-second
window without cancelling the task; if the task reached a terminal state
within the window the job is removed and the captured output returned
directly, else a handle (job id, echoed command, status running, timeout) is
returned with the job still running in the store. -/
theorem C2_fast_path_rule
    (cmd : String) (timeout : Nat) (env : Env) (store : JobStore)
    (hc : pyStripS cmd ≠ "") (ht : SYNC_THRESHOLD < timeout) :
    FAST_PATH_WINDOW = 2 ∧
    (∀ o, env.fastOutcome = some o →
      run_kali_command cmd timeout env store =
        (.direct (fmtJobOut
            (applyOutcome (initJob cmd timeout env.now) o env.pid env.tEnd).stdout
            (applyOutcome (initJob cmd timeout env.now) o env.pid env.tEnd).stderr
            (applyOutcome (initJob cmd timeout env.now) o env.pid env.tEnd).returnCode),
         removeJob (setJob store env.jobId (initJob cmd timeout env.now)) env.jobId) ∧
      lookupJob (run_kali_command cmd timeout env store).snd env.jobId = none ∧
      (∀ k, k ≠ env.jobId →
        lookupJob (run_kali_command cmd timeout env store).snd k = lookupJob store k)) ∧
    (env.fastOutcome = none →
      run_kali_command cmd timeout env store =
        (.handle env.jobId cmd timeout,
         setJob store env.jobId (initJob cmd timeout env.now)) ∧
      lookupJob (run_kali_command cmd timeout env store).snd env.jobId =
        some (initJob cmd timeout env.now) ∧
      (initJob cmd timeout env.now).status = .running) := by
  have ht' : ¬ timeout ≤ SYNC_THRESHOLD := Nat.not_le.mpr ht
  refine ⟨rfl, ?_, ?_⟩
  · intro o ho
    have hrun : run_kali_command cmd timeout env store =
        (.direct (fmtJobOut
            (applyOutcome (initJob cmd timeout env.now) o env.pid env.tEnd).stdout
            (applyOutcome (initJob cmd timeout env.now) o env.pid env.tEnd).stderr
            (applyOutcome (initJob cmd timeout env.now) o env.pid env.tEnd).returnCode),
         removeJob (setJob store env.jobId (initJob cmd timeout env.now)) env.jobId) := by
      simp [run_kali_command, hc, ht', ho]
    refine ⟨hrun, ?_, ?_⟩
    · rw [hrun]
      exact lookupJob_removeJob_self _ _
    · intro k hk
      rw [hrun]
      rw [lookupJob_removeJob_ne _ _ _ hk, lookupJob_setJob_ne _ _ _ _ hk]
  · intro ho
    have hrun : run_kali_command cmd timeout env store =
        (.handle env.jobId cmd timeout,
         setJob store env.jobId (initJob cmd timeout env.now)) := by
      simp [run_kali_command, hc, ht', ho]
    refine ⟨hrun, ?_, rfl⟩
    rw [hrun]
    exact lookupJob_setJob_self _ _ _

theorem C2_witness :
    run_kali_command "echo hi" 300
        ⟨"j1", 0, 1, 42, .finishes "" "" 0, some (.completed "hi\n" "" 0)⟩ [] =
      (.direct (fmtJobOut "hi\n" "" (some 0)),
       removeJob (setJob [] "j1" (initJob "echo hi" 300 0)) "j1") ∧
    lookupJob (run_kali_command "echo hi" 300
        ⟨"j1", 0, 1, 42, .finishes "" "" 0, some (.completed "hi\n" "" 0)⟩ []).snd "j1" =
      none ∧
    run_kali_command "sleep 120" 300
        ⟨"j2", 0, 1, 42, .finishes "" "" 0, none⟩ [] =
      (.handle "j2" "sleep 120" 300, setJob [] "j2" (initJob "sleep 120" 300 0)) := by
  refine ⟨?_, ?_, ?_⟩
  · exact ((C2_fast_path_rule "echo hi" 300 _ [] (by decide) (by decide)).2.1
      (.completed "hi\n" "" 0) rfl).1
  · exact ((C2_fast_path_rule "echo hi" 300 _ [] (by decide) (by decide)).2.1
      (.completed "hi\n" "" 0) rfl).2.1
  · exact ((C2_fast_path_rule "sleep 120" 300 _ [] (by decide) (by decide)).2.2 rfl).1

/-- Claim C3 as stated is false: after a successful `cancel_job` the job is
still in the store with status `cancelled`, so the next `get_job_status`
returns the formatted output block (and only the one after that returns
not-found).  Concretely: cancel a running job, then query — the result is an
output block, not a not-found error. -/
theorem C3_counterexample :
    (cancel_job [("j1", initJob "sleep 120" 300 0)] "j1" 5).fst = .ok "j1" ∧
    (get_job_status (cancel_job [("j1", initJob "sleep 120" 300 0)] "j1" 5).snd
        "j1" 9).fst = .output (fmtJobOut "" "" none) ∧
    ((get_job_status (cancel_job [("j1", initJob "sleep 120" 300 0)] "j1" 5).snd
        "j1" 9).fst).isNotFound = false := by
  exact ⟨rfl, rfl, rfl⟩

/-- Claim C3 amended: for every running job, `cancel_job` succeeds with status
cancelled and leaves the job in the store marked cancelled; the next
`get_job_status` returns the formatted output block and removes the job, and
only a second `get_job_status` returns a not-found error. -/
theorem C3_cancel_then_status
    (store : JobStore) (id : String) (j : Job) (tEnd now later : Nat)
    (hl : lookupJob store id = some j) (hs : j.status = .running) :
    (cancel_job store id tEnd).fst = .ok id ∧
    lookupJob (cancel_job store id tEnd).snd id =
      some { j with status := .cancelled, endTime := some tEnd } ∧
    get_job_status (cancel_job store id tEnd).snd id now =
      (.output (fmtJobOut j.stdout j.stderr j.returnCode),
       removeJob (cancel_job store id tEnd).snd id) ∧
    (get_job_status (removeJob (cancel_job store id tEnd).snd id) id later).fst =
      .notFound id := by
  have hsnd : (cancel_job store id tEnd).snd =
      setJob store id { j with status := .cancelled, endTime := some tEnd } := by
    simp [cancel_job, hl, hs]
  refine ⟨by simp [cancel_job, hl, hs], ?_, ?_, ?_⟩
  · rw [hsnd]
    exact lookupJob_setJob_self _ _ _
  · rw [hsnd]
    simp [get_job_status, lookupJob_setJob_self]
  · simp [get_job_status, lookupJob_removeJob_self]

theorem C3_witness :
    (cancel_job [("j7", initJob "sleep 120" 300 0)] "j7" 5).fst = .ok "j7" ∧
    get_job_status (cancel_job [("j7", initJob "sleep 120" 300 0)] "j7" 5).snd
        "j7" 9 =
      (.output (fmtJobOut "" "" none),
       removeJob (cancel_job [("j7", initJob "sleep 120" 300 0)] "j7" 5).snd "j7") ∧
    (get_job_status
        (removeJob (cancel_job [("j7", initJob "sleep 120" 300 0)] "j7" 5).snd "j7")
        "j7" 11).fst = .notFound "j7" := by
  have h := C3_cancel_then_status [("j7", initJob "sleep 120" 300 0)] "j7"
    (initJob "sleep 120" 300 0) 5 9 11 rfl rfl
  exact ⟨h.1, h.2.2.1, h.2.2.2⟩

/-- Claim C4: mode selection — for timeout ≤ 60 the call is synchronous (a
direct bounded call to the process runner, or an invalid-argument error for a
blank command) and the job store is exactly the same after the call. -/
theorem C4_sync_mode_no_job
    (cmd : String) (timeout : Nat) (env : Env) (store : JobStore)
    (ht : timeout ≤ SYNC_THRESHOLD) :
    (run_kali_command cmd timeout env store).snd = store ∧
    (pyStripS cmd = "" →
      (run_kali_command cmd timeout env store).fst =
        .invalid "Command cannot be empty") ∧
    (pyStripS cmd ≠ "" →
      (run_kali_command cmd timeout env store).fst =
        .direct (fmtSyncOut (run_command env.beh timeout).fst.fst
          (run_command env.beh timeout).fst.snd.fst
          (run_command env.beh timeout).fst.snd.snd)) := by
  by_cases hc : pyStripS cmd = ""
  · refine ⟨?_, fun _ => ?_, fun h => absurd hc h⟩ <;> simp [run_kali_command, hc]
  · refine ⟨?_, fun h => absurd h hc, fun _ => ?_⟩ <;>
      simp [run_kali_command, hc, ht]

theorem C4_witness :
    (run_kali_command "echo hi" 10
        ⟨"j1", 0, 1, 42, .finishes " hi " "" 0, none⟩
        [("k", initJob "x" 300 0)]).snd = [("k", initJob "x" 300 0)] ∧
    (run_kali_command "echo hi" 10
        ⟨"j1", 0, 1, 42, .finishes " hi " "" 0, none⟩
        [("k", initJob "x" 300 0)]).fst = .direct (fmtSyncOut "hi" "" 0) := by
  have h := C4_sync_mode_no_job "echo hi" 10
    ⟨"j1", 0, 1, 42, .finishes " hi " "" 0, none⟩ [("k", initJob "x" 300 0)]
    (by decide)
  exact ⟨h.1, h.2.2 (by decide)⟩

/-- Claim C5: `run_command` failure results — a command exceeding its timeout
yields `("", descriptive timeout message, -1)` after SIGTERM to the process
group with SIGKILL escalation after the 5-second grace period, and a command
that fails to spawn yields `("", failure message, -1)` instead of raising. -/
theorem C5_run_command_failure_results (t : Nat) (msg : String) (dies : Bool) :
    run_command (.timesOut dies) t =
      (("", "Command timed out after " ++ toString t ++ " seconds", -1),
       cleanupSignals dies) ∧
    run_command (.spawnFail msg) t =
      (("", "Error executing command: " ++ msg, -1), []) ∧
    cleanupSignals dies = .term :: (if dies then [] else [.kill]) ∧
    CLEANUP_GRACE = 5 := by
  refine ⟨rfl, rfl, ?_, rfl⟩
  cases dies <;> rfl

/-- Claim C6: cancellation contract — `cancel_job` returns not-found iff the
id is absent, conflict iff the id is present with a non-running status, and
otherwise marks the job cancelled with its end time set. -/
theorem C6_cancel_contract (store : JobStore) (id : String) (tEnd : Nat) :
    ((cancel_job store id tEnd).fst = .notFound id ↔ lookupJob store id = none) ∧
    ((∃ st, (cancel_job store id tEnd).fst = .conflict id st) ↔
      (∃ j, lookupJob store id = some j ∧ j.status ≠ .running)) ∧
    (∀ j, lookupJob store id = some j → j.status = .running →
      (cancel_job store id tEnd).fst = .ok id ∧
      lookupJob (cancel_job store id tEnd).snd id =
        some { j with status := .cancelled, endTime := some tEnd }) := by
  cases hl : lookupJob store id with
  | none =>
      refine ⟨by simp [cancel_job, hl], ?_, ?_⟩
      · constructor
        · rintro ⟨st, hst⟩
          simp [cancel_job, hl] at hst
        · rintro ⟨j, hj, -⟩
          simp at hj
      · intro j hj
        simp at hj
  | some j =>
      by_cases hs : j.status = .running
      · refine ⟨by simp [cancel_job, hl, hs], ?_, ?_⟩
        · constructor
          · rintro ⟨st, hst⟩
            simp [cancel_job, hl, hs] at hst
          · rintro ⟨j', hj', hs'⟩
            cases hj'
            exact absurd hs hs'
        · intro j' hj' _
          cases hj'
          refine ⟨by simp [cancel_job, hl, hs], ?_⟩
          have : (cancel_job store id tEnd).snd =
              setJob store id { j with status := .cancelled, endTime := some tEnd } := by
            simp [cancel_job, hl, hs]
          rw [this]
          exact lookupJob_setJob_self _ _ _
      · refine ⟨by simp [cancel_job, hl, hs], ?_, ?_⟩
        · constructor
          · intro _
            exact ⟨j, rfl, hs⟩
          · intro _
            exact ⟨j.status, by simp [cancel_job, hl, hs]⟩
        · intro j' hj' hs'
          cases hj'
          exact absurd hs' hs

theorem C6_witness :
    (cancel_job [] "zz" 0).fst = .notFound "zz" ∧
    (cancel_job [("j1", initJob "sleep 120" 300 0)] "j1" 3).fst = .ok "j1" ∧
    (∃ st, (cancel_job
        [("j1", applyOutcome (initJob "c" 300 0) (.completed "o" "" 0) 42 5)]
        "j1" 3).fst = .conflict "j1" st) := by
  refine ⟨(C6_cancel_contract [] "zz" 0).1.mpr rfl, ?_, ?_⟩
  · exact ((C6_cancel_contract [("j1", initJob "sleep 120" 300 0)] "j1" 3).2.2
      (initJob "sleep 120" 300 0) rfl rfl).1
  · exact (C6_cancel_contract _ "j1" 3).2.1.mpr
      ⟨applyOutcome (initJob "c" 300 0) (.completed "o" "" 0) 42 5, rfl, by decide⟩

/-- Claim C7 as stated is false: the job record created by `run_kali_command`
has status `running` but a null process handle (the dict is inserted with
`'process': None` before the background task spawns anything), and a terminal
transition does not clear the handle (a completed job keeps its process).
Concretely: after submitting a background job whose window elapses, the stored
job is running with `process = none`; and applying a completed outcome leaves
`process = some 42`. -/
theorem C7_counterexample :
    lookupJob (run_kali_command "sleep 120" 300
        ⟨"j1", 0, 1, 42, .finishes "" "" 0, none⟩ []).snd "j1" =
      some (initJob "sleep 120" 300 0) ∧
    (initJob "sleep 120" 300 0).status = .running ∧
    (initJob "sleep 120" 300 0).process = none ∧
    (applyOutcome (initJob "c" 300 0) (.completed "o" "" 0) 42 5).status =
      .completed ∧
    (applyOutcome (initJob "c" 300 0) (.completed "o" "" 0) 42 5).process =
      some 42 := by
  exact ⟨rfl, rfl, rfl, rfl, rfl⟩

/-- Claim C7 amended: a job is created with a null process handle while
already `running`; the handle is stored only when the subprocess spawns
(`bg_store_process`); and no terminal transition clears it — a background
outcome records the spawned pid (spawn failure leaves the handle as it was)
and always sets a non-running status, and `cancel_job` changes only the
status and end time, leaving the handle untouched. -/
theorem C7_process_handle_behaviour
    (cmd : String) (t now : Nat) (j : Job) (o : BgOutcome) (pid tEnd : Nat)
    (store : JobStore) (id : String) (tc : Nat) :
    (initJob cmd t now).status = .running ∧
    (initJob cmd t now).process = none ∧
    (applyOutcome j o pid tEnd).status ≠ .running ∧
    (applyOutcome j o pid tEnd).process =
      (match o with
       | .spawnError _ => j.process
       | _ => some pid) ∧
    (∀ j', lookupJob store id = some j' → j'.status = .running →
      lookupJob (cancel_job store id tc).snd id =
        some { j' with status := .cancelled, endTime := some tc }) := by
  refine ⟨rfl, rfl, ?_, ?_, ?_⟩
  · cases o <;> simp [applyOutcome]
  · cases o <;> rfl
  · intro j' hl hs
    have : (cancel_job store id tc).snd =
        setJob store id { j' with status := .cancelled, endTime := some tc } := by
      simp [cancel_job, hl, hs]
    rw [this]
    exact lookupJob_setJob_self _ _ _

theorem C7_witness :
    (applyOutcome (initJob "c" 300 0) .timedOut 42 5).status ≠ .running ∧
    (applyOutcome (initJob "c" 300 0) .timedOut 42 5).process = some 42 ∧
    lookupJob (cancel_job [("j9", initJob "sleep 120" 300 0)] "j9" 4).snd "j9" =
      some { initJob "sleep 120" 300 0 with
             status := .cancelled, endTime := some 4 } := by
  have h := C7_process_handle_behaviour "c" 300 0 (initJob "c" 300 0) .timedOut
    42 5 [("j9", initJob "sleep 120" 300 0)] "j9" 4
  exact ⟨h.2.2.1, h.2.2.2.1, h.2.2.2.2 (initJob "sleep 120" 300 0) rfl rfl⟩

/-- Claim C10: a background submit whose task reaches a terminal `error` or
`timeout` state within the 2-second window still returns the formatted output
block and deletes the job (never a structured error or a job handle), and in
the error case the return-code field of the block is the absent value `None`
(spawn failure never sets a return code), not `-1`. -/
theorem C10_fast_path_error_outcomes
    (cmd : String) (timeout : Nat) (env : Env) (store : JobStore) (msg : String)
    (hc : pyStripS cmd ≠ "") (ht : SYNC_THRESHOLD < timeout) :
    (env.fastOutcome = some (.spawnError msg) →
      run_kali_command cmd timeout env store =
        (.direct (fmtJobOut "" ("Failed to start command: " ++ msg) none),
         removeJob (setJob store env.jobId (initJob cmd timeout env.now)) env.jobId) ∧
      lookupJob (run_kali_command cmd timeout env store).snd env.jobId = none ∧
      rcShow none = "None") ∧
    (env.fastOutcome = some .timedOut →
      run_kali_command cmd timeout env store =
        (.direct (fmtJobOut ""
            ("Command timed out after " ++ toString timeout ++ " seconds")
            (some (-1))),
         removeJob (setJob store env.jobId (initJob cmd timeout env.now)) env.jobId) ∧
      lookupJob (run_kali_command cmd timeout env store).snd env.jobId = none) := by
  have ht' : ¬ timeout ≤ SYNC_THRESHOLD := Nat.not_le.mpr ht
  constructor
  · intro ho
    have hrun : run_kali_command cmd timeout env store =
        (.direct (fmtJobOut "" ("Failed to start command: " ++ msg) none),
         removeJob (setJob store env.jobId (initJob cmd timeout env.now)) env.jobId) := by
      simp [run_kali_command, hc, ht', ho, applyOutcome, initJob]
    refine ⟨hrun, ?_, rfl⟩
    rw [hrun]
    exact lookupJob_removeJob_self _ _
  · intro ho
    have hrun : run_kali_command cmd timeout env store =
        (.direct (fmtJobOut ""
            ("Command timed out after " ++ toString timeout ++ " seconds")
            (some (-1))),
         removeJob (setJob store env.jobId (initJob cmd timeout env.now)) env.jobId) := by
      simp [run_kali_command, hc, ht', ho, applyOutcome, initJob]
    refine ⟨hrun, ?_⟩
    rw [hrun]
    exact lookupJob_removeJob_self _ _

theorem C10_witness :
    run_kali_command "bogus-binary" 300
        ⟨"j1", 0, 1, 42, .finishes "" "" 0, some (.spawnError "boom")⟩ [] =
      (.direct (fmtJobOut "" ("Failed to start command: " ++ "boom") none),
       removeJob (setJob [] "j1" (initJob "bogus-binary" 300 0)) "j1") ∧
    lookupJob (run_kali_command "bogus-binary" 300
        ⟨"j1", 0, 1, 42, .finishes "" "" 0, some (.spawnError "boom")⟩ []).snd
      "j1" = none := by
  have h := (C10_fast_path_error_outcomes "bogus-binary" 300
    ⟨"j1", 0, 1, 42, .finishes "" "" 0, some (.spawnError "boom")⟩ [] "boom"
    (by decide) (by decide)).1 rfl
  exact ⟨h.1, h.2.1⟩

/-! ## Lemmas for the payload-extraction scan -/

theorem all_takeWhile (p : Char → Bool) (l : List Char) :
    (l.takeWhile p).all p = true := by
  induction l with
  | nil => rfl
  | cons c cs ih =>
      cases h : p c with
      | true => simp [List.takeWhile_cons, h, ih]
      | false => simp [List.takeWhile_cons, h]

theorem takeWhile_run (run rest : List Char) (h : run.all isAlnumChar = true) :
    (run ++ '.' :: rest).takeWhile isAlnumChar = run := by
  induction run with
  | nil => simp [List.takeWhile_cons, show isAlnumChar '.' = false from rfl]
  | cons c cs ih =>
      simp only [List.all_cons, Bool.and_eq_true] at h
      simp [List.takeWhile_cons, h.1, ih h.2]

theorem dropWhile_run (run rest : List Char) (h : run.all isAlnumChar = true) :
    (run ++ '.' :: rest).dropWhile isAlnumChar = '.' :: rest := by
  induction run with
  | nil => simp [List.dropWhile_cons, show isAlnumChar '.' = false from rfl]
  | cons c cs ih =>
      simp only [List.all_cons, Bool.and_eq_true] at h
      simp [List.dropWhile_cons, h.1, ih h.2]

theorem listStartsWith_append (p t : List Char) :
    listStartsWith p (p ++ t) = true := by
  induction p with
  | nil => rfl
  | cons c cs ih => simp [listStartsWith, ih]

theorem headMatch_shape (d l m : List Char) (h : headMatch d l = some m) :
    ∃ run, m = run ++ '.' :: d ∧ 20 ≤ run.length ∧
      run.all isAlnumChar = true := by
  simp only [headMatch] at h
  split at h
  · split at h
    · cases h
      exact ⟨l.takeWhile isAlnumChar, rfl, by assumption, all_takeWhile _ _⟩
    · cases h
  · cases h

theorem findAllDomainGo_shape (d : List Char) (fuel : Nat) :
    ∀ (l m : List Char), m ∈ findAllDomainGo d fuel l →
      ∃ run, m = run ++ '.' :: d ∧ 20 ≤ run.length ∧
        run.all isAlnumChar = true := by
  induction fuel with
  | zero =>
      intro l m h
      simp [findAllDomainGo] at h
  | succ fuel ih =>
      intro l m h
      cases l with
      | nil => simp [findAllDomainGo] at h
      | cons c cs =>
          simp only [findAllDomainGo] at h
          cases hm : headMatch d (c :: cs) with
          | some m0 =>
              rw [hm] at h
              simp only [List.mem_cons] at h
              cases h with
              | inl he =>
                  subst he
                  exact headMatch_shape d (c :: cs) _ hm
              | inr hr => exact ih _ m hr
          | none =>
              rw [hm] at h
              exact ih cs m h

theorem findAllDomain_shape (d l m : List Char) (h : m ∈ findAllDomain d l) :
    ∃ run, m = run ++ '.' :: d ∧ 20 ≤ run.length ∧
      run.all isAlnumChar = true :=
  findAllDomainGo_shape d l.length l m h

theorem headMatch_append (d run suf : List Char)
    (hall : run.all isAlnumChar = true) (h20 : 20 ≤ run.length) :
    headMatch d (run ++ '.' :: (d ++ suf)) = some (run ++ '.' :: d) := by
  simp only [headMatch]
  rw [takeWhile_run _ _ hall, dropWhile_run _ _ hall, if_pos h20]
  have hsw : listStartsWith ('.' :: d) ('.' :: (d ++ suf)) = true := by
    simpa using listStartsWith_append ('.' :: d) suf
  simp [hsw]

theorem findAllDomainGo_head (d : List Char) (fuel : Nat) (c : Char)
    (cs m : List Char) (h : headMatch d (c :: cs) = some m) :
    m ∈ findAllDomainGo d (fuel + 1) (c :: cs) := by
  simp only [findAllDomainGo]
  rw [h]
  exact List.mem_cons_self _ _

theorem findAllDomain_head_mem (d run suf : List Char)
    (hall : run.all isAlnumChar = true) (h20 : 20 ≤ run.length) :
    (run ++ '.' :: d) ∈ findAllDomain d (run ++ '.' :: (d ++ suf)) := by
  obtain ⟨c, cs, rfl⟩ : ∃ c cs, run = c :: cs := by
    cases run with
    | nil => simp at h20
    | cons c cs => exact ⟨c, cs, rfl⟩
  have hm := headMatch_append d (c :: cs) suf hall h20
  rw [List.cons_append] at hm ⊢
  simp only [findAllDomain, List.length_cons]
  exact findAllDomainGo_head _ _ _ _ _ hm

theorem headMatchUrl_shape (l m : List Char) (h : headMatchUrl l = some m) :
    ∃ tok, tok ≠ [] ∧ tok.all (fun c => !isSpaceChar c) = true ∧
      (m = SCHEME_HTTPS ++ tok ∨ m = SCHEME_HTTP ++ tok) := by
  simp only [headMatchUrl] at h
  split at h
  · split at h
    · cases h
    · cases h
      refine ⟨(l.drop 8).takeWhile (fun c => !isSpaceChar c), ?_,
        all_takeWhile _ _, Or.inl rfl⟩
      intro hnil
      exact ‹¬ _› (by simp [hnil])
  · split at h
    · split at h
      · cases h
      · cases h
        refine ⟨(l.drop 7).takeWhile (fun c => !isSpaceChar c), ?_,
          all_takeWhile _ _, Or.inr rfl⟩
        intro hnil
        exact ‹¬ _› (by simp [hnil])
    · cases h

theorem findAllUrlGo_shape (fuel : Nat) :
    ∀ (l m : List Char), m ∈ findAllUrlGo fuel l →
      ∃ tok, tok ≠ [] ∧ tok.all (fun c => !isSpaceChar c) = true ∧
        (m = SCHEME_HTTPS ++ tok ∨ m = SCHEME_HTTP ++ tok) := by
  induction fuel with
  | zero =>
      intro l m h
      simp [findAllUrlGo] at h
  | succ fuel ih =>
      intro l m h
      cases l with
      | nil => simp [findAllUrlGo] at h
      | cons c cs =>
          simp only [findAllUrlGo] at h
          cases hm : headMatchUrl (c :: cs) with
          | some m0 =>
              rw [hm] at h
              simp only [List.mem_cons] at h
              cases h with
              | inl he =>
                  subst he
                  exact headMatchUrl_shape (c :: cs) _ hm
              | inr hr => exact ih _ m hr
          | none =>
              rw [hm] at h
              exact ih cs m h

theorem mem_dedupFirstAux (xs : List (List Char)) :
    ∀ (seen : List (List Char)) (a : List Char),
      a ∈ dedupFirstAux seen xs ↔ (a ∈ xs ∧ a ∉ seen) := by
  induction xs with
  | nil =>
      intro seen a
      simp [dedupFirstAux]
  | cons x xs ih =>
      intro seen a
      by_cases hx : x ∈ seen
      · rw [dedupFirstAux, if_pos hx, ih seen a]
        constructor
        · rintro ⟨h1, h2⟩
          exact ⟨List.mem_cons_of_mem x h1, h2⟩
        · rintro ⟨h1, h2⟩
          rcases List.mem_cons.mp h1 with he | hm
          · exact absurd (he ▸ hx) h2
          · exact ⟨hm, h2⟩
      · rw [dedupFirstAux, if_neg hx]
        constructor
        · intro hmem
          rcases List.mem_cons.mp hmem with he | hm
          · subst he
            exact ⟨List.mem_cons_self _ _, hx⟩
          · obtain ⟨h1, h2⟩ := (ih (x :: seen) a).mp hm
            exact ⟨List.mem_cons_of_mem x h1,
              fun hs => h2 (List.mem_cons_of_mem x hs)⟩
        · rintro ⟨h1, h2⟩
          by_cases he : a = x
          · subst he
            exact List.mem_cons_self _ _
          · rcases List.mem_cons.mp h1 with he' | hm
            · exact absurd he' he
            · exact List.mem_cons_of_mem x ((ih (x :: seen) a).mpr
                ⟨hm, fun hs => (List.mem_cons.mp hs).elim he h2⟩)

theorem dedupFirstAux_sublist (xs : List (List Char)) :
    ∀ seen : List (List Char), List.Sublist (dedupFirstAux seen xs) xs := by
  induction xs with
  | nil =>
      intro seen
      simp [dedupFirstAux]
  | cons x xs ih =>
      intro seen
      by_cases hx : x ∈ seen
      · rw [dedupFirstAux, if_pos hx]
        exact (ih seen).cons x
      · rw [dedupFirstAux, if_neg hx]
        exact (ih (x :: seen)).cons₂ x

theorem nodup_dedupFirstAux (xs : List (List Char)) :
    ∀ seen : List (List Char), (dedupFirstAux seen xs).Nodup := by
  induction xs with
  | nil =>
      intro seen
      simp [dedupFirstAux]
  | cons x xs ih =>
      intro seen
      by_cases hx : x ∈ seen
      · rw [dedupFirstAux, if_pos hx]
        exact ih seen
      · rw [dedupFirstAux, if_neg hx]
        refine List.nodup_cons.mpr ⟨?_, ih (x :: seen)⟩
        intro hmem
        exact ((mem_dedupFirstAux xs (x :: seen) x).mp hmem).2
          (List.mem_cons_self x seen)

/-! ## Claims about the interaction listener -/

/-- Claim C8 as stated is false: the scan collects leftmost non-overlapping
matches, so a substring that does consist of 20 or more alphanumerics
immediately followed by `.` and the configured domain is skipped when it
overlaps an earlier match.  In the text below, `proqqqqqqqqqqqqqqqqq.oast.pro`
is such a substring (20 alphanumerics, then `.oast.pro`, preceded by a
non-alphanumeric `.`), yet extraction returns only the first match. -/
theorem C8_counterexample :
    "aaaaaaaaaaaaaaaaaaaa.oast.proqqqqqqqqqqqqqqqqq.oast.pro".toList =
      "aaaaaaaaaaaaaaaaaaaa.oast.".toList ++
        ("proqqqqqqqqqqqqqqqqq".toList ++ '.' :: "oast.pro".toList) ∧
    ("proqqqqqqqqqqqqqqqqq".toList).all isAlnumChar = true ∧
    20 ≤ ("proqqqqqqqqqqqqqqqqq".toList).length ∧
    parse_payloads_from_output
        "aaaaaaaaaaaaaaaaaaaa.oast.proqqqqqqqqqqqqqqqqq.oast.pro".toList
        "oast.pro".toList =
      ["aaaaaaaaaaaaaaaaaaaa.oast.pro".toList] ∧
    ("proqqqqqqqqqqqqqqqqq".toList ++ '.' :: "oast.pro".toList) ∉
      parse_payloads_from_output
        "aaaaaaaaaaaaaaaaaaaa.oast.proqqqqqqqqqqqqqqqqq.oast.pro".toList
        "oast.pro".toList := by
  decide

/-- Claim C8 amended: after ANSI colour sequences are stripped, extraction
returns the leftmost non-overlapping matches of each configured domain
pattern — every such match is a run of at least 20 alphanumerics immediately
followed by a dot and the (trimmed, protocol-less) domain, so shorter or
differently-suffixed strings are never matched, and a well-formed occurrence
at the start of the text is always found, though an occurrence overlapping an
earlier match may be skipped — plus the leftmost non-overlapping `http`/
`https` URLs (a scheme and at least one non-whitespace character); the result
is the duplicate-free, first-occurrence-order list of the domain matches
followed by the URL matches. -/
theorem C8_payload_extraction (text server : List Char) :
    (∀ d s, d ∈ serverDomains server → s ∈ findAllDomain d (stripAnsi text) →
      ∃ run, s = run ++ '.' :: d ∧ 20 ≤ run.length ∧
        run.all isAlnumChar = true) ∧
    (∀ u, u ∈ findAllUrl (stripAnsi text) →
      ∃ tok, tok ≠ [] ∧ tok.all (fun c => !isSpaceChar c) = true ∧
        (u = SCHEME_HTTPS ++ tok ∨ u = SCHEME_HTTP ++ tok)) ∧
    (parse_payloads_from_output text server).Nodup ∧
    List.Sublist (parse_payloads_from_output text server)
      (((serverDomains server).map
          (fun d => findAllDomain d (stripAnsi text))).flatten ++
        findAllUrl (stripAnsi text)) ∧
    (∀ s, s ∈ parse_payloads_from_output text server ↔
      s ∈ ((serverDomains server).map
          (fun d => findAllDomain d (stripAnsi text))).flatten ++
        findAllUrl (stripAnsi text)) ∧
    (∀ d run suf, d ∈ serverDomains server → run.all isAlnumChar = true →
      20 ≤ run.length → stripAnsi text = run ++ '.' :: (d ++ suf) →
      (run ++ '.' :: d) ∈ findAllDomain d (stripAnsi text)) := by
  refine ⟨?_, ?_, ?_, ?_, ?_, ?_⟩
  · intro d s _ hs
    exact findAllDomain_shape d (stripAnsi text) s hs
  · intro u hu
    exact findAllUrlGo_shape (stripAnsi text).length (stripAnsi text) u hu
  · exact nodup_dedupFirstAux _ []
  · exact dedupFirstAux_sublist _ []
  · intro s
    rw [show parse_payloads_from_output text server =
        dedupFirst (((serverDomains server).map
            (fun d => findAllDomain d (stripAnsi text))).flatten ++
          findAllUrl (stripAnsi text)) from rfl]
    rw [dedupFirst, mem_dedupFirstAux]
    simp
  · intro d run suf _ hall h20 heq
    rw [heq]
    exact findAllDomain_head_mem d run suf hall h20

theorem C8_witness :
    ("abcdefghij0123456789".toList ++ '.' :: "oast.pro".toList) ∈
      findAllDomain "oast.pro".toList
        (stripAnsi "abcdefghij0123456789.oast.pro".toList) ∧
    (parse_payloads_from_output "abcdefghij0123456789.oast.pro".toList
        "oast.pro".toList).Nodup := by
  constructor
  · exact (C8_payload_extraction "abcdefghij0123456789.oast.pro".toList
      "oast.pro".toList).2.2.2.2.2 "oast.pro".toList
      "abcdefghij0123456789".toList [] (by decide) (by decide) (by decide)
      (by decide)
  · exact (C8_payload_extraction "abcdefghij0123456789.oast.pro".toList
      "oast.pro".toList).2.2.1

/-- Claim C9 as stated is false: `poll_interactsh` joins all lines and parses
them as one JSON array, so a single unparsable line drops every record.  Here
the line `1` is independently valid JSON and the line `x` is not; the claim
says the valid record is still returned, but the code returns an empty
interaction list (inside a success response). -/
theorem C9_counterexample :
    parseJsonL "1".toList = some (.num 1) ∧
    parseJsonL "x".toList = none ∧
    poll_interactsh
        (some ⟨.running, "/app/workspace/interactsh_output.json"⟩)
        (some ["1".toList, "x".toList]) = .success [] 0 true := by
  exact ⟨rfl, rfl, rfl⟩

/-- Claim C9 amended: with a running worker, poll reads the output file's
non-blank stripped lines, joins them into one JSON array text and parses it
in a single shot.  Poll always returns a success result (never fatal): a
missing file yields zero records, an empty file yields zero records, a
successfully parsed assembly yields exactly its records, and a failed parse
(for instance any invalid line) degrades to zero records for the whole file —
individually valid lines are not recovered. -/
theorem C9_poll_tolerance (wk : Worker) (file : Option (List (List Char)))
    (hw : wk.status = .running) :
    (∃ ints cnt fe, poll_interactsh (some wk) file = .success ints cnt fe) ∧
    (file = none → poll_interactsh (some wk) file = .success [] 0 false) ∧
    (∀ content, file = some content → pollLines content = [] →
      poll_interactsh (some wk) file = .success [] 0 true) ∧
    (∀ content vs, file = some content →
      parseJsonL (assembled content) = some (.arr vs) →
      pollLines content ≠ [] →
      poll_interactsh (some wk) file = .success vs vs.length true) ∧
    (∀ content, file = some content →
      parseJsonL (assembled content) = none →
      poll_interactsh (some wk) file = .success [] 0 true) := by
  refine ⟨?_, ?_, ?_, ?_, ?_⟩
  · cases file with
    | none => exact ⟨[], 0, false, by simp [poll_interactsh, hw]⟩
    | some content =>
        by_cases hl : pollLines content = []
        · exact ⟨[], 0, true, by simp [poll_interactsh, hw, hl]⟩
        · cases hp : parseJsonL (assembled content) with
          | none => exact ⟨[], 0, true, by simp [poll_interactsh, hw, hl, hp]⟩
          | some v =>
              cases v with
              | arr vs =>
                  exact ⟨vs, vs.length, true,
                    by simp [poll_interactsh, hw, hl, hp]⟩
              | null => exact ⟨[], 0, true, by simp [poll_interactsh, hw, hl, hp]⟩
              | bool b => exact ⟨[], 0, true, by simp [poll_interactsh, hw, hl, hp]⟩
              | num n => exact ⟨[], 0, true, by simp [poll_interactsh, hw, hl, hp]⟩
              | str s => exact ⟨[], 0, true, by simp [poll_interactsh, hw, hl, hp]⟩
              | obj f => exact ⟨[], 0, true, by simp [poll_interactsh, hw, hl, hp]⟩
  · intro hn
    subst hn
    simp [poll_interactsh, hw]
  · intro content hc hl
    subst hc
    simp [poll_interactsh, hw, hl]
  · intro content vs hc hp hl
    subst hc
    simp [poll_interactsh, hw, hl, hp]
  · intro content hc hp
    subst hc
    by_cases hl : pollLines content = []
    · simp [poll_interactsh, hw, hl]
    · simp [poll_interactsh, hw, hl, hp]

theorem C9_witness :
    poll_interactsh (some ⟨.running, "f"⟩) (some ["1".toList, "2".toList]) =
      .success [.num 1, .num 2] 2 true ∧
    poll_interactsh (some ⟨.running, "f"⟩) none = .success [] 0 false := by
  constructor
  · exact (C9_poll_tolerance ⟨.running, "f"⟩ (some ["1".toList, "2".toList])
      rfl).2.2.2.1 ["1".toList, "2".toList] [.num 1, .num 2] rfl rfl
      (by decide)
  · exact (C9_poll_tolerance ⟨.running, "f"⟩ none rfl).2.1 rfl

end KaliMcp
